import Mathlib

/-
Shallow embedding of the requested-to-capacity-ratio scoring core of
pkg/scheduler/algorithm/priorities (two revisions of
requested_to_capacity_ratio.go, the float revision of the broken-linear
function, and the shape-descriptor parsing path).

Conventions:
* Go int64 values are embedded as unbounded Int; every value the scoring
  path manipulates is range-checked (x in [0,100], y in [0,10]) or is a
  resource amount far below the int64 overflow threshold, so wraparound is
  not modelled.
* Go integer division truncates toward zero; it is embedded as Int.tdiv.
* Go panics / glog.Fatalf / out-of-range slice reads are embedded as
  Option/Except: a result of none (resp. Except.error) marks an execution
  that aborts instead of returning a value.
-/

/-- minX from the const block of requested_to_capacity_ratio.go. -/
def minX : Int := 0

/-- maxX from the const block of requested_to_capacity_ratio.go. -/
def maxX : Int := 100

/-- minY from the const block of requested_to_capacity_ratio.go. -/
def minY : Int := 0

/-- maxY = schedulerapi.MaxPriority; the tests in src pin it to 10
("values in y must not be greater than 10"). -/
def maxY : Int := 10

/-- FunctionShapePoint of the point-struct revision: a single breakpoint. -/
structure FunctionShapePoint where
  x : Int
  y : Int
deriving DecidableEq, Repr

/-- The two fields of schedulercache.Resource read by the scorer
(MilliCPU, Memory); the remaining fields are never consulted. -/
structure Resource where
  MilliCPU : Int
  Memory : Int
deriving DecidableEq, Repr

/-- resourceScoringFunction, the inner closure shared verbatim by both
revisions of buildRequestedToCapacityRatioScorerFunction:
if capacity == 0 or requested > capacity, evaluate the raw curve at maxX,
otherwise at maxX - (capacity-requested)*maxX/capacity. -/
def resourceScoringFunction (raw : Int → Option Int) (requested capacity : Int) : Option Int :=
  if capacity = 0 ∨ requested > capacity then raw maxX
  else raw (maxX - Int.tdiv ((capacity - requested) * maxX) capacity)

namespace RevB

/- Point-struct revision: type FunctionShape []FunctionShapePoint. -/

/-- The sorted-order loop of NewFunctionShape (point-struct revision):
first index i ≥ 1 with points[i-1].x >= points[i].x yields the error.
`prev` is points[i-1], `i` its index. -/
def checkSorted : FunctionShapePoint → Nat → List FunctionShapePoint → Option String
  | _, _, [] => none
  | prev, i, q :: rest =>
    if prev.x ≥ q.x then
      some ("values in x must be sorted. x[" ++ toString i ++ "]==" ++ toString prev.x ++
        " >= x[" ++ toString (i + 1) ++ "]==" ++ toString q.x)
    else checkSorted q (i + 1) rest

/-- The range loop of NewFunctionShape (point-struct revision): per point,
in order, x < minX, x > maxX, y < minY, y > maxY. -/
def checkRange : Nat → List FunctionShapePoint → Option String
  | _, [] => none
  | i, q :: rest =>
    if q.x < minX then
      some ("values in x must not be less than " ++ toString minX ++ ". x[" ++ toString i ++ "]==" ++ toString q.x)
    else if q.x > maxX then
      some ("values in x must not be greater than " ++ toString maxX ++ ". x[" ++ toString i ++ "]==" ++ toString q.x)
    else if q.y < minY then
      some ("values in y must not be less than " ++ toString minY ++ ". y[" ++ toString i ++ "]==" ++ toString q.y)
    else if q.y > maxY then
      some ("values in y must not be greater than " ++ toString maxY ++ ". y[" ++ toString i ++ "]==" ++ toString q.y)
    else checkRange (i + 1) rest

/-- NewFunctionShape of the point-struct revision: rejects the empty list,
then checks sortedness, then ranges; on success returns (a copy of) the
points. -/
def NewFunctionShape : List FunctionShapePoint → Except String (List FunctionShapePoint)
  | [] => Except.error "at least one point must be specified"
  | q :: rest =>
    match checkSorted q 0 rest with
    | some e => Except.error e
    | none =>
      match checkRange 0 (q :: rest) with
      | some e => Except.error e
      | none => Except.ok (q :: rest)

/-- The loop body of the closure returned by buildBrokenLinearFunction for
indices i ≥ 1: `prev` is shape[i-1]; on the first q with p ≤ q.x return
shape[i-1].y + (shape[i].y-shape[i-1].y)*(p-shape[i-1].x)/(shape[i].x-shape[i-1].x)
(Go division truncates toward zero); if the loop ends, return the last y. -/
def evalSegments (prev : FunctionShapePoint) : List FunctionShapePoint → Int → Int
  | [], _ => prev.y
  | q :: rest, p =>
    if p ≤ q.x then prev.y + Int.tdiv ((q.y - prev.y) * (p - prev.x)) (q.x - prev.x)
    else evalSegments q rest p

/-- buildBrokenLinearFunction of the point-struct revision. For the empty
shape the loop body never runs and the final `return shape[n-1].y` reads
index -1, a panic: embedded as none. -/
def buildBrokenLinearFunction : List FunctionShapePoint → Int → Option Int
  | [], _ => none
  | q :: rest, p => some (if p ≤ q.x then q.y else evalSegments q rest p)

/-- buildRequestedToCapacityRatioScorerFunction of the point-struct
revision: cpu and memory each scored through resourceScoringFunction over
the raw curve, then (cpuScore + memoryScore) / 2 (truncating division).
The includeVolumes / requestedVolumes / allocatableVolumes parameters are
accepted and never read. -/
def buildRequestedToCapacityRatioScorerFunction (scoringFunctionShape : List FunctionShapePoint)
    (requested allocable : Resource) (includeVolumes : Bool)
    (requestedVolumes allocatableVolumes : Int) : Option Int :=
  let rawScoringFunction := buildBrokenLinearFunction scoringFunctionShape
  match resourceScoringFunction rawScoringFunction requested.MilliCPU allocable.MilliCPU,
        resourceScoringFunction rawScoringFunction requested.Memory allocable.Memory with
  | some cpuScore, some memoryScore => some (Int.tdiv (cpuScore + memoryScore) 2)
  | _, _ => none

/-- defaultFunctionShape, _ = NewFunctionShape([]FunctionShapePoint{{0, 10}, {100, 0}});
the discarded error would leave a nil shape, embedded as []. -/
def defaultFunctionShape : List FunctionShapePoint :=
  match NewFunctionShape [⟨0, 10⟩, ⟨100, 0⟩] with
  | Except.ok s => s
  | Except.error _ => []

end RevB

namespace RevA

/- Parallel-arrays revision: type FunctionShape struct { x []int64; y []int64 }. -/

/-- FunctionShape of the parallel-arrays revision. -/
structure FunctionShape where
  x : List Int
  y : List Int
deriving DecidableEq, Repr

/-- The sorted-order loop of NewFunctionShape (parallel-arrays revision). -/
def checkSorted : Int → Nat → List Int → Option String
  | _, _, [] => none
  | prev, i, v :: rest =>
    if prev ≥ v then
      some ("values in x must be sorted. x[" ++ toString i ++ "]==" ++ toString prev ++
        " >= x[" ++ toString (i + 1) ++ "]==" ++ toString v)
    else checkSorted v (i + 1) rest

/-- The range loop of NewFunctionShape (parallel-arrays revision); the two
lists have equal length when this runs (checked first). -/
def checkRange : Nat → List Int → List Int → Option String
  | _, [], _ => none
  | _, _, [] => none
  | i, xv :: xs, yv :: ys =>
    if xv < minX then
      some ("values in x must not be less than " ++ toString minX ++ ". x[" ++ toString i ++ "]==" ++ toString xv)
    else if xv > maxX then
      some ("values in x must not be greater than " ++ toString maxX ++ ". x[" ++ toString i ++ "]==" ++ toString xv)
    else if yv < minY then
      some ("values in y must not be less than " ++ toString minY ++ ". y[" ++ toString i ++ "]==" ++ toString yv)
    else if yv > maxY then
      some ("values in y must not be greater than " ++ toString maxY ++ ". y[" ++ toString i ++ "]==" ++ toString yv)
    else checkRange (i + 1) xs ys

/-- NewFunctionShape of the parallel-arrays revision: length check, then
sortedness, then ranges. Note: unlike the point-struct revision it has NO
emptiness check — NewFunctionShape([],[]) succeeds. -/
def NewFunctionShape (x y : List Int) : Except String FunctionShape :=
  if x.length ≠ y.length then
    Except.error ("length of x(" ++ toString x.length ++ ") does not match length of y(" ++
      toString y.length ++ ")")
  else
    match x with
    | [] =>
      -- the sorted loop and range loop run zero iterations
      Except.ok ⟨x, y⟩
    | x0 :: xs =>
      match checkSorted x0 0 xs with
      | some e => Except.error e
      | none =>
        match checkRange 0 x y with
        | some e => Except.error e
        | none => Except.ok ⟨x, y⟩

/-- Loop body of the closure returned by buildBrokenLinearFunction
(parallel-arrays revision) for indices i ≥ 1; same algorithm as the
point-struct revision over the two parallel slices. The `(_ :: _, [])`
case is unreachable: the builder checks equal lengths first. -/
def evalSegments (prevx prevy : Int) : List Int → List Int → Int → Int
  | [], _, _ => prevy
  | _ :: _, [], _ => prevy
  | qx :: xs, qy :: ys, p =>
    if p ≤ qx then prevy + Int.tdiv ((qy - prevy) * (p - prevx)) (qx - prevx)
    else evalSegments qx qy xs ys p

/-- buildBrokenLinearFunction of the parallel-arrays revision: aborts
(glog.Fatalf) on length mismatch; for the empty shape the returned closure
reads y[-1], a panic: both embedded as none. -/
def buildBrokenLinearFunction (shape : FunctionShape) (p : Int) : Option Int :=
  if shape.x.length = shape.y.length then
    match shape.x, shape.y with
    | [], _ => none
    | _ :: _, [] => none
    | x0 :: xs, y0 :: ys => some (if p ≤ x0 then y0 else evalSegments x0 y0 xs ys p)
  else none

/-- buildRequestedToCapacityRatioScorerFunction of the parallel-arrays
revision; identical to the point-struct revision but over FunctionShape
with parallel slices. -/
def buildRequestedToCapacityRatioScorerFunction (scoringFunctionShape : FunctionShape)
    (requested allocable : Resource) (includeVolumes : Bool)
    (requestedVolumes allocatableVolumes : Int) : Option Int :=
  let rawScoringFunction := buildBrokenLinearFunction scoringFunctionShape
  match resourceScoringFunction rawScoringFunction requested.MilliCPU allocable.MilliCPU,
        resourceScoringFunction rawScoringFunction requested.Memory allocable.Memory with
  | some cpuScore, some memoryScore => some (Int.tdiv (cpuScore + memoryScore) 2)
  | _, _ => none

end RevA

namespace FloatRev

/- The float64 revision of brokenLinearFunction (src/unnamed/part_001).
It is embedded over ℚ: at every input evaluated below all intermediate
float64 values are small integers or exact sums/products/quotients of
them, hence exactly representable, so the ℚ computation coincides with
the float64 one. -/

/-- The sorted-order loop of brokenLinearFunction (float revision), which
panics on the first inversion. -/
def checkIncreasing : ℚ → List ℚ → Bool
  | _, [] => true
  | prev, v :: rest => if prev ≥ v then false else checkIncreasing v rest

/-- Loop body of the closure returned by brokenLinearFunction (float
revision) for indices i ≥ 1. NOTE the divisor: the code computes
yy[i-1] + (yy[i]-yy[i-1])*(xx[i]-xx[i-1])/(p-xx[i-1]), dividing by
(p - xx[i-1]) where the linear-interpolation formula divides by
(xx[i] - xx[i-1]). The `(_ :: _, [])` case is unreachable (lengths are
checked equal before the closure is built). -/
def evalSegments (prevx prevy : ℚ) : List ℚ → List ℚ → ℚ → ℚ
  | [], _, _ => prevy
  | _ :: _, [], _ => prevy
  | qx :: xs, qy :: ys, p =>
    if p ≤ qx then prevy + (qy - prevy) * (qx - prevx) / (p - prevx)
    else evalSegments qx qy xs ys p

/-- brokenLinearFunction (float revision): panics on length mismatch or
non-increasing x (none); the empty shape makes the closure read yy[-1],
also a panic (none). -/
def brokenLinearFunction (x y : List ℚ) (p : ℚ) : Option ℚ :=
  if x.length ≠ y.length then none
  else
    match x, y with
    | [], _ => none
    | _ :: _, [] => none
    | x0 :: xs, y0 :: ys =>
      if checkIncreasing x0 xs then
        some (if p ≤ x0 then y0 else evalSegments x0 y0 xs ys p)
      else none

end FloatRev

namespace ParseRev

/- ParseRequestedToCapacityRatioScoringFunctionShape and the float-domain
constructor it delegates to. The float64 values are embedded as exact
decimal numbers num/10^exp: every descriptor token the spec and tests
exercise is a short decimal literal, on which float64 parsing and
comparison agree with the exact decimal semantics. -/

/-- An exact decimal number with value num / 10^exp. -/
structure Decimal where
  num : Int
  exp : Nat
deriving DecidableEq, Repr

/-- The rational value denoted by a Decimal. -/
def Decimal.toRat (d : Decimal) : ℚ :=
  (d.num : ℚ) / (10 : ℚ) ^ d.exp

/-- Comparison of exact decimal values (cross-multiplied, 10^e > 0). -/
def Decimal.bge (a b : Decimal) : Bool :=
  b.num * 10 ^ a.exp ≤ a.num * 10 ^ b.exp

/-- Modelled from the spec: strconv.ParseFloat (Go standard library, not
under src/) restricted to the spec's descriptor grammar of plain decimal
numbers — an optional sign, an integer part and an optional fractional
part, at least one digit overall; any other token is a parse error. -/
def parseDecimal (cs0 : List Char) : Option Decimal :=
  let digitsVal : List Char → Int := fun ds =>
    (ds.foldl (fun a c => 10 * a + (c.toNat - 48)) 0 : Nat)
  let core : List Char → Option Decimal := fun cs =>
    let ip := cs.takeWhile Char.isDigit
    let rest := cs.dropWhile Char.isDigit
    match rest with
    | [] => if ip.isEmpty then none else some ⟨digitsVal ip, 0⟩
    | '.' :: fp =>
      if fp.all Char.isDigit && (!ip.isEmpty || !fp.isEmpty) then
        some ⟨digitsVal ip * 10 ^ fp.length + digitsVal fp, fp.length⟩
      else none
    | _ => none
  match cs0 with
  | '-' :: cs => (core cs).map (fun d => ⟨-d.num, d.exp⟩)
  | '+' :: cs => core cs
  | cs => core cs

/-- strings.Split for a one-character separator (the only separators the
code uses are "," and "="): Go semantics, so the empty input yields one
empty token and empty tokens between separators are kept. -/
def splitOnChar (sep : Char) : List Char → List (List Char)
  | [] => [[]]
  | c :: rest =>
    match splitOnChar sep rest with
    | [] => [[c]]
    | g :: gs => if c = sep then [] :: g :: gs else (c :: g) :: gs

/-- One iteration of the parsing loop: strings.Split(pointDesc, "=") must
give exactly two tokens and both must parse as numbers, else the function
panics. -/
def parsePoint (pointDesc : List Char) : Option (Decimal × Decimal) :=
  match splitOnChar '=' pointDesc with
  | [xs, ys] =>
    match parseDecimal xs, parseDecimal ys with
    | some px, some py => some (px, py)
    | _, _ => none
  | _ => none

/-- The whole parsing loop: every comma-separated token must yield a
point. -/
def parsePoints : List (List Char) → Option (List (Decimal × Decimal))
  | [] => some []
  | t :: rest =>
    match parsePoint t, parsePoints rest with
    | some q, some qs => some (q :: qs)
    | _, _ => none

/-- The sorted-order loop of the float-domain shape constructor: panic on
the first index with x[i-1] >= x[i]. -/
def checkIncreasing : Decimal → List Decimal → Bool
  | _, [] => true
  | prev, v :: rest => if prev.bge v then false else checkIncreasing v rest

/-- Modelled from the spec: the float-domain constructor newFunctionShape
called by ParseRequestedToCapacityRatioScoringFunctionShape is not under
src/ (only its callers and test assertions are). Per spec section 4.1 and
the error texts asserted in the src tests, it checks equal lengths and
strictly increasing x, returning a descriptive error on violation. -/
def newFunctionShape (x y : List Decimal) : Except String (List Decimal × List Decimal) :=
  if x.length ≠ y.length then
    Except.error ("Length of x(" ++ toString x.length ++ ") does not match length of y(" ++
      toString y.length ++ ")")
  else
    match x with
    | [] => Except.ok (x, y)
    | x0 :: xs =>
      if checkIncreasing x0 xs then Except.ok (x, y)
      else Except.error "Values in x must be increasing."

/-- ParseRequestedToCapacityRatioScoringFunctionShape: split the
descriptor on commas, parse every x=y token, then delegate to the shape
constructor; every failure is a panic (embedded as Except.error) — the
function halts instead of returning a shape. -/
def ParseRequestedToCapacityRatioScoringFunctionShape (shapeDesc : String) :
    Except String (List Decimal × List Decimal) :=
  let pointDescs := splitOnChar ',' shapeDesc.data
  match parsePoints pointDescs with
  | none => Except.error ("Cannot parse function shape " ++ shapeDesc)
  | some pts =>
    match newFunctionShape (pts.map Prod.fst) (pts.map Prod.snd) with
    | Except.error e =>
      Except.error ("Cannot parse function shape " ++ shapeDesc ++ "; err=" ++ e)
    | Except.ok shape => Except.ok shape

end ParseRev

/-- Modelled from the spec: the scoring entry-point adaptor
(ResourceAllocationPriority, not under src/) feeds the scorer the sum of
the workload's requested resources and the node's already-used resources,
together with the node's allocatable capacity (spec sections 4.6 and 6). -/
def scoreNode (shape : List FunctionShapePoint) (podRequest used capacity : Resource) : Option Int :=
  RevB.buildRequestedToCapacityRatioScorerFunction shape
    ⟨podRequest.MilliCPU + used.MilliCPU, podRequest.Memory + used.Memory⟩
    capacity false 0 0

namespace RevB

/-- Strictly increasing x coordinates, the invariant established by the
sorted-order loop. -/
def XSorted (l : List FunctionShapePoint) : Prop :=
  l.Chain' (fun a b => a.x < b.x)

end RevB

/- ===== Proof infrastructure over the point-struct revision ===== -/

namespace RevB

instance : IsTrans FunctionShapePoint (fun a b => a.x < b.x) :=
  ⟨fun _ _ _ h1 h2 => lt_trans h1 h2⟩

theorem XSorted.pairwise {l : List FunctionShapePoint} (h : XSorted l) :
    l.Pairwise (fun a b => a.x < b.x) :=
  List.chain'_iff_pairwise.mp h

theorem checkSorted_none : ∀ (prev : FunctionShapePoint) (i : Nat)
    (rest : List FunctionShapePoint), checkSorted prev i rest = none →
    XSorted (prev :: rest)
  | _, _, [], _ => List.chain'_singleton _
  | prev, i, q :: rest, h => by
    unfold checkSorted at h
    by_cases hc : prev.x ≥ q.x
    · simp [hc] at h
    · rw [if_neg hc] at h
      exact List.chain'_cons.mpr ⟨by omega, checkSorted_none q (i + 1) rest h⟩

theorem checkRange_none : ∀ (i : Nat) (l : List FunctionShapePoint),
    checkRange i l = none →
    ∀ q ∈ l, minX ≤ q.x ∧ q.x ≤ maxX ∧ minY ≤ q.y ∧ q.y ≤ maxY
  | _, [], _, q, hq => absurd hq (List.not_mem_nil q)
  | i, c :: rest, h, q, hq => by
    unfold checkRange at h
    by_cases h1 : c.x < minX
    · simp [h1] at h
    by_cases h2 : c.x > maxX
    · simp [h1, h2] at h
    by_cases h3 : c.y < minY
    · simp [h1, h2, h3] at h
    by_cases h4 : c.y > maxY
    · simp [h1, h2, h3, h4] at h
    rw [if_neg h1, if_neg h2, if_neg h3, if_neg h4] at h
    rcases List.mem_cons.mp hq with rfl | hmem
    · exact ⟨by omega, by omega, by omega, by omega⟩
    · exact checkRange_none (i + 1) rest h q hmem

/-- What acceptance by NewFunctionShape (point-struct revision) gives:
the shape is the input list, nonempty, strictly increasing in x, and
every coordinate is inside the configured domain. -/
theorem NewFunctionShape_ok {pts s : List FunctionShapePoint}
    (h : NewFunctionShape pts = Except.ok s) :
    s = pts ∧ pts ≠ [] ∧ XSorted pts ∧
      ∀ q ∈ pts, minX ≤ q.x ∧ q.x ≤ maxX ∧ minY ≤ q.y ∧ q.y ≤ maxY := by
  match pts, h with
  | [], h => exact absurd h (by simp [NewFunctionShape])
  | c :: rest, h =>
    rw [NewFunctionShape] at h
    cases hs : checkSorted c 0 rest with
    | some e => rw [hs] at h; exact absurd h (by simp)
    | none =>
      rw [hs] at h
      cases hr : checkRange 0 (c :: rest) with
      | some e => rw [hr] at h; exact absurd h (by simp)
      | none =>
        rw [hr] at h
        simp only [Except.ok.injEq] at h
        exact ⟨h.symm, List.cons_ne_nil c rest, checkSorted_none c 0 rest hs,
          checkRange_none 0 (c :: rest) hr⟩

/-- Locating a consecutive pair through getElem?. -/
theorem getElem?_pair_split : ∀ (l : List FunctionShapePoint) (i : Nat)
    (a b : FunctionShapePoint), l[i]? = some a → l[i + 1]? = some b →
    ∃ pre post, l = pre ++ a :: b :: post
  | [], i, a, b, ha, _ => by simp at ha
  | c :: t, 0, a, b, ha, hb => by
    rw [List.getElem?_cons_zero] at ha
    rw [List.getElem?_cons_succ] at hb
    cases t with
    | nil => simp at hb
    | cons d t2 =>
      rw [List.getElem?_cons_zero] at hb
      exact ⟨[], t2, by simp_all⟩
  | c :: t, i + 1, a, b, ha, hb => by
    rw [List.getElem?_cons_succ] at ha
    rw [List.getElem?_cons_succ] at hb
    obtain ⟨pre, post, rfl⟩ := getElem?_pair_split t i a b ha hb
    exact ⟨c :: pre, post, rfl⟩

/-- Inside the segment loop: the first breakpoint at or beyond p settles
the value, using the segment ending at that breakpoint. -/
theorem evalSegments_pair : ∀ (pre : List FunctionShapePoint)
    (c a b : FunctionShapePoint) (post : List FunctionShapePoint) (p : Int),
    XSorted (c :: pre ++ a :: b :: post) → a.x < p → p ≤ b.x →
    evalSegments c (pre ++ a :: b :: post) p =
      a.y + Int.tdiv ((b.y - a.y) * (p - a.x)) (b.x - a.x)
  | [], c, a, b, post, p, hsort, hap, hpb => by
    show evalSegments c (a :: b :: post) p = _
    unfold evalSegments
    rw [if_neg (by omega)]
    unfold evalSegments
    rw [if_pos hpb]
  | d :: pre2, c, a, b, post, p, hsort, hap, hpb => by
    show evalSegments c (d :: (pre2 ++ a :: b :: post)) p = _
    have htail : XSorted (d :: pre2 ++ a :: b :: post) := hsort.tail
    have hda : d.x < a.x := by
      have hp := htail.pairwise
      exact (List.pairwise_cons.mp hp).1 a (by simp)
    unfold evalSegments
    rw [if_neg (by omega)]
    exact evalSegments_pair pre2 d a b post p htail hap hpb

/-- The broken-linear function on a consecutive pair (a, b) with
a.x < p ≤ b.x returns the truncating-division segment formula. -/
theorem buildBrokenLinear_pair (pre : List FunctionShapePoint)
    (a b : FunctionShapePoint) (post : List FunctionShapePoint) (p : Int)
    (hsort : XSorted (pre ++ a :: b :: post)) (hap : a.x < p) (hpb : p ≤ b.x) :
    buildBrokenLinearFunction (pre ++ a :: b :: post) p =
      some (a.y + Int.tdiv ((b.y - a.y) * (p - a.x)) (b.x - a.x)) := by
  cases pre with
  | nil =>
    show buildBrokenLinearFunction (a :: b :: post) p = _
    rw [buildBrokenLinearFunction]
    rw [if_neg (by omega)]
    unfold evalSegments
    rw [if_pos hpb]
  | cons c pre2 =>
    show buildBrokenLinearFunction (c :: (pre2 ++ a :: b :: post)) p = _
    have hca : c.x < a.x := by
      have hp := hsort.pairwise
      exact (List.pairwise_cons.mp hp).1 a (by simp)
    rw [buildBrokenLinearFunction]
    rw [if_neg (by omega)]
    rw [evalSegments_pair pre2 c a b post p hsort hap hpb]

end RevB

namespace RevB

theorem getLast?_cons_eq_getLastD : ∀ (c : FunctionShapePoint)
    (t : List FunctionShapePoint), (c :: t).getLast? = some (t.getLastD c)
  | _, [] => rfl
  | c, d :: t2 => by
    rw [List.getLast?_cons_cons, getLast?_cons_eq_getLastD d t2, List.getLastD_cons]

theorem getLastD_mem_cons : ∀ (t : List FunctionShapePoint)
    (c : FunctionShapePoint), t.getLastD c ∈ c :: t
  | [], _ => List.mem_singleton.mpr rfl
  | d :: t2, c => by
    rw [List.getLastD_cons]
    exact List.mem_cons_of_mem c (getLastD_mem_cons t2 d)

/-- In a sorted shape every breakpoint sits at or left of the last one. -/
theorem mem_x_le_of_getLast? : ∀ (l : List FunctionShapePoint)
    (qn : FunctionShapePoint), XSorted l → l.getLast? = some qn →
    ∀ q ∈ l, q.x ≤ qn.x
  | [], _, _, hl, q, hq => absurd hq (List.not_mem_nil q)
  | c :: t, qn, hs, hl, q, hq => by
    rw [getLast?_cons_eq_getLastD] at hl
    have hqn : qn = t.getLastD c := by injection hl with h; exact h.symm
    rcases List.mem_cons.mp hq with rfl | hmem
    · cases t with
      | nil => subst hqn; exact le_refl _
      | cons d t2 =>
        have hmem2 : qn ∈ d :: t2 := by
          subst hqn; rw [List.getLastD_cons]; exact getLastD_mem_cons t2 d
        exact le_of_lt ((List.pairwise_cons.mp hs.pairwise).1 qn hmem2)
    · cases t with
      | nil => exact absurd hmem (List.not_mem_nil q)
      | cons d t2 =>
        refine mem_x_le_of_getLast? (d :: t2) qn hs.tail ?_ q hmem
        rw [getLast?_cons_eq_getLastD d t2]
        rw [List.getLastD_cons] at hl
        exact hl

/-- When every remaining breakpoint is strictly left of p the loop falls
through and returns the last y. -/
theorem evalSegments_last : ∀ (prev : FunctionShapePoint)
    (rest : List FunctionShapePoint) (p : Int), (∀ q ∈ rest, q.x < p) →
    evalSegments prev rest p = (rest.getLastD prev).y
  | _, [], _, _ => rfl
  | prev, q :: t, p, h => by
    unfold evalSegments
    rw [if_neg (by have := h q (List.mem_cons_self q t); omega)]
    rw [List.getLastD_cons]
    exact evalSegments_last q t p (fun r hr => h r (List.mem_cons_of_mem q hr))

/-- Evaluating the loop exactly at a later breakpoint returns its y:
the truncating division cancels because p - x[i-1] = x[i] - x[i-1]. -/
theorem evalSegments_breakpoint : ∀ (prev : FunctionShapePoint)
    (rest : List FunctionShapePoint), XSorted (prev :: rest) →
    ∀ q ∈ rest, evalSegments prev rest q.x = q.y
  | _, [], _, q, hq => absurd hq (List.not_mem_nil q)
  | prev, d :: t, hs, q, hq => by
    have hpd : prev.x < d.x := (List.chain'_cons.mp hs).1
    rcases List.mem_cons.mp hq with rfl | hmem
    · unfold evalSegments
      rw [if_pos (le_refl q.x)]
      rw [Int.mul_tdiv_cancel _ (by omega : q.x - prev.x ≠ 0)]
      omega
    · have hdq : d.x < q.x := (List.pairwise_cons.mp hs.tail.pairwise).1 q hmem
      unfold evalSegments
      rw [if_neg (by omega)]
      exact evalSegments_breakpoint d t hs.tail q hmem

/-- Monotonicity of truncating division in a non-negative numerator. -/
theorem tdiv_le_tdiv_of_le {a b c : Int} (h0 : 0 ≤ a) (hab : a ≤ b)
    (hc : 0 < c) : a.tdiv c ≤ b.tdiv c := by
  rw [Int.tdiv_eq_ediv h0 (le_of_lt hc), Int.tdiv_eq_ediv (le_trans h0 hab) (le_of_lt hc)]
  exact Int.ediv_le_ediv hc hab

/-- The value of one linear segment stays between the surrounding
breakpoint values (hence inside any band containing them). -/
theorem segmentValue_in_range (a b : FunctionShapePoint) (p low high : Int)
    (hax : a.x < p) (hpb : p ≤ b.x) (hab : a.x < b.x)
    (ha1 : low ≤ a.y) (ha2 : a.y ≤ high) (hb1 : low ≤ b.y) (hb2 : b.y ≤ high) :
    low ≤ a.y + Int.tdiv ((b.y - a.y) * (p - a.x)) (b.x - a.x) ∧
      a.y + Int.tdiv ((b.y - a.y) * (p - a.x)) (b.x - a.x) ≤ high := by
  rcases le_or_lt a.y b.y with hy | hy
  · have h1 : 0 ≤ (b.y - a.y) * (p - a.x) := mul_nonneg (by omega) (by omega)
    have h2 : (b.y - a.y) * (p - a.x) ≤ (b.y - a.y) * (b.x - a.x) :=
      mul_le_mul_of_nonneg_left (by omega) (by omega)
    have h3 : 0 ≤ Int.tdiv ((b.y - a.y) * (p - a.x)) (b.x - a.x) :=
      Int.tdiv_nonneg h1 (by omega)
    have h4 : Int.tdiv ((b.y - a.y) * (p - a.x)) (b.x - a.x) ≤ b.y - a.y := by
      have h5 := tdiv_le_tdiv_of_le h1 h2 (by omega : (0:Int) < b.x - a.x)
      rwa [Int.mul_tdiv_cancel _ (by omega : b.x - a.x ≠ 0)] at h5
    omega
  · have hneg : (b.y - a.y) * (p - a.x) = -((a.y - b.y) * (p - a.x)) := by ring
    rw [hneg, Int.neg_tdiv]
    have h1 : 0 ≤ (a.y - b.y) * (p - a.x) := mul_nonneg (by omega) (by omega)
    have h2 : (a.y - b.y) * (p - a.x) ≤ (a.y - b.y) * (b.x - a.x) :=
      mul_le_mul_of_nonneg_left (by omega) (by omega)
    have h3 : 0 ≤ Int.tdiv ((a.y - b.y) * (p - a.x)) (b.x - a.x) :=
      Int.tdiv_nonneg h1 (by omega)
    have h4 : Int.tdiv ((a.y - b.y) * (p - a.x)) (b.x - a.x) ≤ a.y - b.y := by
      have h5 := tdiv_le_tdiv_of_le h1 h2 (by omega : (0:Int) < b.x - a.x)
      rwa [Int.mul_tdiv_cancel _ (by omega : b.x - a.x ≠ 0)] at h5
    omega

/-- Every value the loop can produce for a query right of the current
breakpoint lies inside any band containing all breakpoint values. -/
theorem evalSegments_in_range : ∀ (prev : FunctionShapePoint)
    (rest : List FunctionShapePoint) (p low high : Int),
    XSorted (prev :: rest) →
    (∀ q ∈ prev :: rest, low ≤ q.y ∧ q.y ≤ high) → prev.x < p →
    low ≤ evalSegments prev rest p ∧ evalSegments prev rest p ≤ high
  | prev, [], p, low, high, _, hband, _ => by
    have := hband prev (List.mem_cons_self prev [])
    unfold evalSegments
    omega
  | prev, d :: t, p, low, high, hs, hband, hp => by
    have hpd : prev.x < d.x := (List.chain'_cons.mp hs).1
    have hbp := hband prev (List.mem_cons_self prev (d :: t))
    have hbd := hband d (List.mem_cons_of_mem prev (List.mem_cons_self d t))
    unfold evalSegments
    by_cases hc : p ≤ d.x
    · rw [if_pos hc]
      exact segmentValue_in_range prev d p low high hp hc hpd hbp.1 hbp.2 hbd.1 hbd.2
    · rw [if_neg hc]
      exact evalSegments_in_range d t p low high hs.tail
        (fun q hq => hband q (List.mem_cons_of_mem prev hq)) (by omega)

/-- On a nonempty shape whose y values all lie in a band, the broken
linear function is total and its value stays inside the band. -/
theorem buildBrokenLinear_total_in_range (l : List FunctionShapePoint)
    (p low high : Int) (hs : XSorted l)
    (hband : ∀ q ∈ l, low ≤ q.y ∧ q.y ≤ high) (hne : l ≠ []) :
    ∃ v, buildBrokenLinearFunction l p = some v ∧ low ≤ v ∧ v ≤ high := by
  cases l with
  | nil => exact absurd rfl hne
  | cons c rest =>
    rw [buildBrokenLinearFunction]
    by_cases hc : p ≤ c.x
    · rw [if_pos hc]
      exact ⟨c.y, rfl, (hband c (List.mem_cons_self c rest)).1,
        (hband c (List.mem_cons_self c rest)).2⟩
    · rw [if_neg hc]
      exact ⟨_, rfl, evalSegments_in_range c rest p low high hs hband (by omega)⟩

end RevB

/- ===== Claim theorems ===== -/

/-- C1, counterexample to the claim as stated: the shape x=[10,90],
y=[1,9] is accepted by NewFunctionShape, the interior query p = 15 has
x[0] < p < x[1], the broken-linear function returns 1 (the value the
revision's own test table expects), yet the linear interpolation computed
with exact rational arithmetic is 1 + (9-1)*(15-10)/(90-10) = 3/2 ≠ 1. -/
theorem C1_exact_rational_counterexample :
    RevA.NewFunctionShape [10, 90] [1, 9] = Except.ok ⟨[10, 90], [1, 9]⟩ ∧
    RevB.NewFunctionShape [⟨10, 1⟩, ⟨90, 9⟩] = Except.ok [⟨10, 1⟩, ⟨90, 9⟩] ∧
    RevB.buildBrokenLinearFunction [⟨10, 1⟩, ⟨90, 9⟩] 15 = some 1 ∧
    RevA.buildBrokenLinearFunction ⟨[10, 90], [1, 9]⟩ 15 = some 1 ∧
    ((1 : ℚ) ≠ 1 + ((9 : ℚ) - 1) * ((15 : ℚ) - 10) / ((90 : ℚ) - 10)) :=
  ⟨rfl, rfl, rfl, rfl, by norm_num⟩

/-- C1, amended: for every shape accepted by NewFunctionShape
(point-struct revision) and every query p strictly between the
consecutive breakpoints a = shape[i] and b = shape[i+1], the
broken-linear function returns
a.y + (b.y - a.y) * (p - a.x) / (b.x - a.x) with the product computed
exactly and one truncation-toward-zero at the division; whenever that
division is exact, the result coincides with the linear interpolation
computed with exact rational arithmetic. -/
theorem C1_interior_segment_formula (pts s : List FunctionShapePoint)
    (h : RevB.NewFunctionShape pts = Except.ok s) (i : Nat)
    (a b : FunctionShapePoint) (ha : s[i]? = some a) (hb : s[i + 1]? = some b)
    (p : Int) (hap : a.x < p) (hpb : p < b.x) :
    RevB.buildBrokenLinearFunction s p =
      some (a.y + Int.tdiv ((b.y - a.y) * (p - a.x)) (b.x - a.x)) ∧
    ((b.x - a.x) ∣ (b.y - a.y) * (p - a.x) →
      ((a.y + Int.tdiv ((b.y - a.y) * (p - a.x)) (b.x - a.x) : Int) : ℚ) =
        (a.y : ℚ) + ((b.y : ℚ) - (a.y : ℚ)) * ((p : ℚ) - (a.x : ℚ)) /
          ((b.x : ℚ) - (a.x : ℚ))) := by
  obtain ⟨hs, _, hsort, _⟩ := RevB.NewFunctionShape_ok h
  subst hs
  obtain ⟨pre, post, hsplit⟩ := RevB.getElem?_pair_split s i a b ha hb
  subst hsplit
  constructor
  · exact RevB.buildBrokenLinear_pair pre a b post p hsort hap (le_of_lt hpb)
  · intro hdvd
    obtain ⟨k, hk⟩ := hdvd
    have hxne : b.x - a.x ≠ 0 := by omega
    have htd : Int.tdiv ((b.y - a.y) * (p - a.x)) (b.x - a.x) = k := by
      rw [hk, Int.mul_tdiv_cancel_left _ hxne]
    have hq : ((b.y : ℚ) - a.y) * ((p : ℚ) - a.x) = ((b.x : ℚ) - a.x) * (k : ℚ) := by
      exact_mod_cast congrArg (fun z : Int => (z : ℚ)) hk
    have hxq : ((b.x : ℚ) - a.x) ≠ 0 := by
      have hc : ((b.x - a.x : Int) : ℚ) ≠ 0 := Int.cast_ne_zero.mpr hxne
      push_cast at hc
      exact hc
    rw [htd, hq, mul_div_cancel_left₀ _ hxq]
    push_cast
    ring

/-- Witness for C1_interior_segment_formula at the default shape,
i = 0, p = 50 (the division is exact there): value 10 + (-500)/100 = 5,
equal to the exact interpolation 10 + (0-10)*(50-0)/(100-0) = 5. -/
theorem C1_interior_segment_formula_witness :
    RevB.buildBrokenLinearFunction [⟨0, 10⟩, ⟨100, 0⟩] 50 = some 5 ∧
    ((5 : Int) : ℚ) = (10 : ℚ) + ((0 : ℚ) - 10) * ((50 : ℚ) - 0) / ((100 : ℚ) - 0) := by
  have h := C1_interior_segment_formula [⟨0, 10⟩, ⟨100, 0⟩] [⟨0, 10⟩, ⟨100, 0⟩] rfl
    0 ⟨0, 10⟩ ⟨100, 0⟩ rfl rfl 50 (by decide) (by decide)
  refine ⟨?_, by norm_num⟩
  rw [h.1]
  decide

/-- C2: for every shape accepted by NewFunctionShape (point-struct
revision), the broken-linear function clamps exactly to the first y for
p ≤ x[0], clamps exactly to the last y for p ≥ x[n-1], and returns y[i]
exactly at every breakpoint x[i]. -/
theorem C2_clamp_and_breakpoint_exactness (pts s : List FunctionShapePoint)
    (h : RevB.NewFunctionShape pts = Except.ok s) (p : Int) :
    (∀ q0, s.head? = some q0 → p ≤ q0.x →
      RevB.buildBrokenLinearFunction s p = some q0.y) ∧
    (∀ qn, s.getLast? = some qn → qn.x ≤ p →
      RevB.buildBrokenLinearFunction s p = some qn.y) ∧
    (∀ q ∈ s, RevB.buildBrokenLinearFunction s q.x = some q.y) := by
  obtain ⟨hs, hne, hsort, _⟩ := RevB.NewFunctionShape_ok h
  subst hs
  cases s with
  | nil => exact absurd rfl hne
  | cons c rest =>
    have hbreak : ∀ q ∈ c :: rest,
        RevB.buildBrokenLinearFunction (c :: rest) q.x = some q.y := by
      intro q hq
      rcases List.mem_cons.mp hq with rfl | hmem
      · rw [RevB.buildBrokenLinearFunction, if_pos (le_refl q.x)]
      · have hcq : c.x < q.x :=
          (List.pairwise_cons.mp hsort.pairwise).1 q hmem
        rw [RevB.buildBrokenLinearFunction, if_neg (by omega)]
        rw [RevB.evalSegments_breakpoint c rest hsort q hmem]
    refine ⟨?_, ?_, hbreak⟩
    · intro q0 hq0 hple
      rw [List.head?_cons] at hq0
      injection hq0 with hq0
      subst hq0
      rw [RevB.buildBrokenLinearFunction, if_pos hple]
    · intro qn hqn hnp
      rcases eq_or_lt_of_le hnp with heq | hlt
      · have hmem : qn ∈ c :: rest := by
          rw [RevB.getLast?_cons_eq_getLastD] at hqn
          injection hqn with hqn
          subst hqn
          exact RevB.getLastD_mem_cons rest c
        rw [← heq]
        exact hbreak qn hmem
      · have hall : ∀ q ∈ c :: rest, q.x < p := by
          intro q hq
          have := RevB.mem_x_le_of_getLast? (c :: rest) qn hsort hqn q hq
          omega
        rw [RevB.buildBrokenLinearFunction,
          if_neg (by have := hall c (List.mem_cons_self c rest); omega)]
        rw [RevB.evalSegments_last c rest p
          (fun q hq => hall q (List.mem_cons_of_mem c hq))]
        rw [RevB.getLast?_cons_eq_getLastD] at hqn
        injection hqn with hqn
        rw [hqn]

/-- Witness for C2_clamp_and_breakpoint_exactness at the default shape:
left clamp at p = -5, right clamp at p = 150, and breakpoint exactness at
both breakpoints. -/
theorem C2_clamp_and_breakpoint_exactness_witness :
    RevB.buildBrokenLinearFunction [⟨0, 10⟩, ⟨100, 0⟩] (-5) = some 10 ∧
    RevB.buildBrokenLinearFunction [⟨0, 10⟩, ⟨100, 0⟩] 150 = some 0 ∧
    RevB.buildBrokenLinearFunction [⟨0, 10⟩, ⟨100, 0⟩] 0 = some 10 ∧
    RevB.buildBrokenLinearFunction [⟨0, 10⟩, ⟨100, 0⟩] 100 = some 0 := by
  refine ⟨?_, ?_, ?_, ?_⟩
  · exact (C2_clamp_and_breakpoint_exactness [⟨0, 10⟩, ⟨100, 0⟩] [⟨0, 10⟩, ⟨100, 0⟩]
      rfl (-5)).1 ⟨0, 10⟩ rfl (by decide)
  · exact (C2_clamp_and_breakpoint_exactness [⟨0, 10⟩, ⟨100, 0⟩] [⟨0, 10⟩, ⟨100, 0⟩]
      rfl 150).2.1 ⟨100, 0⟩ rfl (by decide)
  · exact (C2_clamp_and_breakpoint_exactness [⟨0, 10⟩, ⟨100, 0⟩] [⟨0, 10⟩, ⟨100, 0⟩]
      rfl 0).2.2 ⟨0, 10⟩ (by decide)
  · exact (C2_clamp_and_breakpoint_exactness [⟨0, 10⟩, ⟨100, 0⟩] [⟨0, 10⟩, ⟨100, 0⟩]
      rfl 100).2.2 ⟨100, 0⟩ (by decide)

/-- C3 (the code contradicts the claim): the parallel-arrays revision's
NewFunctionShape accepts the empty shape (it has no emptiness check), and
the scorer function built from that accepted shape is not total — it
reads y[-1] and aborts (none) instead of returning a score; the
point-struct revision rejects the same input, as the claim requires. -/
theorem C3_empty_shape_scorer_fault :
    RevA.NewFunctionShape [] [] = Except.ok ⟨[], []⟩ ∧
    RevA.buildRequestedToCapacityRatioScorerFunction ⟨[], []⟩ ⟨0, 0⟩ ⟨0, 0⟩
      false 0 0 = none ∧
    RevB.NewFunctionShape [] = Except.error "at least one point must be specified" :=
  ⟨rfl, rfl, rfl⟩

/-- C4 (the code contradicts the claim): construction does NOT fail on the
empty breakpoint list in the parallel-arrays revision — NewFunctionShape
([], []) succeeds there, while the point-struct revision rejects it; the
two error examples of the claim hold with exactly the stated messages,
naming the offending indices and values. -/
theorem C4_construction_failure_cases :
    RevA.NewFunctionShape [] [] = Except.ok ⟨[], []⟩ ∧
    RevB.NewFunctionShape [] = Except.error "at least one point must be specified" ∧
    RevA.NewFunctionShape [1, 2] [1, 2, 3] =
      Except.error "length of x(2) does not match length of y(3)" ∧
    RevA.NewFunctionShape [10, 15, 20, 19, 25] [1, 2, 3, 4, 5] =
      Except.error "values in x must be sorted. x[2]==20 >= x[3]==19" :=
  ⟨rfl, rfl, rfl, rfl⟩

/-- C5: with the default least-utilized-preferred shape (x=[0,100],
y=[10,0]), an idle node of capacity {4000,10000} scores 10 for a workload
requesting {0,0} (both such nodes score alike), and for a workload
requesting {cpu:3000, mem:5000} an idle {4000,10000} node scores 4 while
an idle {6000,10000} node scores 5. -/
theorem C5_default_shape_scenarios :
    scoreNode RevB.defaultFunctionShape ⟨0, 0⟩ ⟨0, 0⟩ ⟨4000, 10000⟩ = some 10 ∧
    scoreNode RevB.defaultFunctionShape ⟨3000, 5000⟩ ⟨0, 0⟩ ⟨4000, 10000⟩ = some 4 ∧
    scoreNode RevB.defaultFunctionShape ⟨3000, 5000⟩ ⟨0, 0⟩ ⟨6000, 10000⟩ = some 5 :=
  ⟨rfl, rfl, rfl⟩

/-- C6: for every shape accepted by NewFunctionShape (point-struct
revision, so nonempty with every y in [minY, maxY]) and all non-negative
requested/allocatable CPU and memory values, the scorer returns a score
and it lies in [minY, maxY] = [0, maxPriority]: interpolation between
in-range breakpoints and the averaging step never leave the band. -/
theorem C6_node_score_within_priority_range (pts s : List FunctionShapePoint)
    (h : RevB.NewFunctionShape pts = Except.ok s)
    (requested allocable : Resource)
    (hr1 : 0 ≤ requested.MilliCPU) (hr2 : 0 ≤ requested.Memory)
    (ha1 : 0 ≤ allocable.MilliCPU) (ha2 : 0 ≤ allocable.Memory)
    (includeVolumes : Bool) (requestedVolumes allocatableVolumes : Int) :
    ∃ v, RevB.buildRequestedToCapacityRatioScorerFunction s requested allocable
        includeVolumes requestedVolumes allocatableVolumes = some v ∧
      minY ≤ v ∧ v ≤ maxY := by
  obtain ⟨hs, hne, hsort, hrange⟩ := RevB.NewFunctionShape_ok h
  subst hs
  have hband : ∀ q ∈ s, minY ≤ q.y ∧ q.y ≤ maxY :=
    fun q hq => ⟨(hrange q hq).2.2.1, (hrange q hq).2.2.2⟩
  have hres : ∀ req cap : Int,
      ∃ w, resourceScoringFunction (RevB.buildBrokenLinearFunction s) req cap = some w ∧
        minY ≤ w ∧ w ≤ maxY := by
    intro req cap
    unfold resourceScoringFunction
    by_cases hc : cap = 0 ∨ req > cap
    · rw [if_pos hc]
      exact RevB.buildBrokenLinear_total_in_range s maxX minY maxY hsort hband hne
    · rw [if_neg hc]
      exact RevB.buildBrokenLinear_total_in_range s _ minY maxY hsort hband hne
  obtain ⟨cpu, hcpu, hcpu1, hcpu2⟩ := hres requested.MilliCPU allocable.MilliCPU
  obtain ⟨mem, hmem, hmem1, hmem2⟩ := hres requested.Memory allocable.Memory
  refine ⟨Int.tdiv (cpu + mem) 2, ?_, ?_, ?_⟩
  · simp only [RevB.buildRequestedToCapacityRatioScorerFunction, hcpu, hmem]
  · have h0 : (0 : Int) ≤ Int.tdiv (cpu + mem) 2 := by
      have hminY : minY = 0 := rfl
      exact Int.tdiv_nonneg (by omega) (by norm_num)
    have hminY : minY = 0 := rfl
    omega
  · have hminY : minY = 0 := rfl
    have hmaxY : maxY = 10 := rfl
    have hle : Int.tdiv (cpu + mem) 2 ≤ Int.tdiv 20 2 :=
      RevB.tdiv_le_tdiv_of_le (by omega) (by omega) (by norm_num)
    have h20 : Int.tdiv 20 2 = 10 := by decide
    omega

/-- Witness for C6_node_score_within_priority_range: the default shape
with a workload of {0,0} on an idle {4000,10000} node admits a returned
score inside [minY, maxY]. -/
theorem C6_node_score_within_priority_range_witness :
    ∃ v, RevB.buildRequestedToCapacityRatioScorerFunction [⟨0, 10⟩, ⟨100, 0⟩]
        ⟨0, 0⟩ ⟨4000, 10000⟩ false 0 0 = some v ∧ minY ≤ v ∧ v ≤ maxY :=
  C6_node_score_within_priority_range [⟨0, 10⟩, ⟨100, 0⟩] [⟨0, 10⟩, ⟨100, 0⟩]
    rfl ⟨0, 0⟩ ⟨4000, 10000⟩ (by decide) (by decide) (by decide) (by decide)
    false 0 0

/-- C7, counterexample to the claim as stated: with the default shape,
requested {cpu:3000, mem:4000} on an allocatable {4000,10000} node gives
per-dimension scores 3 (cpu) and 6 (memory); the scorer returns 4, but
the arithmetic mean of the two per-dimension scores is (3+6)/2 = 9/2 ≠ 4. -/
theorem C7_arithmetic_mean_counterexample :
    resourceScoringFunction
      (RevB.buildBrokenLinearFunction RevB.defaultFunctionShape) 3000 4000 = some 3 ∧
    resourceScoringFunction
      (RevB.buildBrokenLinearFunction RevB.defaultFunctionShape) 4000 10000 = some 6 ∧
    RevB.buildRequestedToCapacityRatioScorerFunction RevB.defaultFunctionShape
      ⟨3000, 4000⟩ ⟨4000, 10000⟩ false 0 0 = some 4 ∧
    ((4 : ℚ) ≠ ((3 : ℚ) + 6) / 2) :=
  ⟨rfl, rfl, rfl, by norm_num⟩

/-- C7, amended: the per-node score is the truncating integer mean
(cpuScore + memoryScore) / 2 of the two per-dimension scores, which
equals the exact arithmetic mean exactly when cpuScore + memoryScore is
even. -/
theorem C7_truncated_mean (shape : List FunctionShapePoint)
    (requested allocable : Resource) (includeVolumes : Bool)
    (requestedVolumes allocatableVolumes : Int) (cpuScore memoryScore : Int)
    (hc : resourceScoringFunction (RevB.buildBrokenLinearFunction shape)
      requested.MilliCPU allocable.MilliCPU = some cpuScore)
    (hm : resourceScoringFunction (RevB.buildBrokenLinearFunction shape)
      requested.Memory allocable.Memory = some memoryScore) :
    RevB.buildRequestedToCapacityRatioScorerFunction shape requested allocable
      includeVolumes requestedVolumes allocatableVolumes =
      some (Int.tdiv (cpuScore + memoryScore) 2) ∧
    (2 ∣ cpuScore + memoryScore →
      ((Int.tdiv (cpuScore + memoryScore) 2 : Int) : ℚ) =
        ((cpuScore : ℚ) + (memoryScore : ℚ)) / 2) := by
  constructor
  · simp only [RevB.buildRequestedToCapacityRatioScorerFunction, hc, hm]
  · rintro ⟨k, hk⟩
    have htd : Int.tdiv (cpuScore + memoryScore) 2 = k := by
      rw [hk, Int.mul_tdiv_cancel_left _ (by norm_num)]
    have hq : (cpuScore : ℚ) + (memoryScore : ℚ) = 2 * (k : ℚ) := by
      exact_mod_cast congrArg (fun z : Int => (z : ℚ)) hk
    rw [htd, hq, mul_div_cancel_left₀ _ (by norm_num : (2 : ℚ) ≠ 0)]

/-- Witness for C7_truncated_mean: default shape, requested {3000,5000},
allocatable {4000,10000}; the per-dimension scores are 3 and 5, the sum
is even, the node score is 4 = (3+5)/2 exactly. -/
theorem C7_truncated_mean_witness :
    RevB.buildRequestedToCapacityRatioScorerFunction RevB.defaultFunctionShape
      ⟨3000, 5000⟩ ⟨4000, 10000⟩ false 0 0 = some 4 ∧
    ((4 : Int) : ℚ) = ((3 : ℚ) + 5) / 2 := by
  have h := C7_truncated_mean RevB.defaultFunctionShape ⟨3000, 5000⟩ ⟨4000, 10000⟩
    false 0 0 3 5 rfl rfl
  refine ⟨?_, by norm_num⟩
  rw [h.1]
  decide

/-- C8: the includeVolumes / requestedVolumes / allocatableVolumes
parameters of the scorer function (both revisions) never influence the
computed score: two invocations agreeing on the requested and allocatable
resources return the same score whatever the volume arguments are. -/
theorem C8_volume_parameters_no_influence
    (shapeB : List FunctionShapePoint) (shapeA : RevA.FunctionShape)
    (requested allocable : Resource)
    (iv1 iv2 : Bool) (rv1 rv2 av1 av2 : Int) :
    RevB.buildRequestedToCapacityRatioScorerFunction shapeB requested allocable
        iv1 rv1 av1 =
      RevB.buildRequestedToCapacityRatioScorerFunction shapeB requested allocable
        iv2 rv2 av2 ∧
    RevA.buildRequestedToCapacityRatioScorerFunction shapeA requested allocable
        iv1 rv1 av1 =
      RevA.buildRequestedToCapacityRatioScorerFunction shapeA requested allocable
        iv2 rv2 av2 :=
  ⟨rfl, rfl⟩

namespace ParseRev

/-- A single bad token makes the whole parsing loop fail. -/
theorem parsePoints_none_of_mem : ∀ (l : List (List Char)) (t : List Char),
    t ∈ l → parsePoint t = none → parsePoints l = none
  | [], t, ht, _ => absurd ht (List.not_mem_nil t)
  | u :: rest, t, ht, hnone => by
    rcases List.mem_cons.mp ht with rfl | hmem
    · unfold parsePoints
      rw [hnone]
    · unfold parsePoints
      rw [parsePoints_none_of_mem rest t hmem hnone]
      cases parsePoint u <;> rfl

end ParseRev

/-- C9: the well-formed descriptor "0.0=0.1,0.3=0.4" parses to the
breakpoints (0.0, 0.1), (0.3, 0.4); the empty descriptor, a single
unpaired token, a non-numeric token, and an out-of-order descriptor all
halt with an error instead of returning a shape; and in general any
descriptor containing a token that does not split into exactly two
decimal numbers halts, as does any descriptor whose parsed breakpoints
fail shape validation. -/
theorem C9_descriptor_parsing :
    ParseRev.ParseRequestedToCapacityRatioScoringFunctionShape "0.0=0.1,0.3=0.4" =
      Except.ok ([⟨0, 1⟩, ⟨3, 1⟩], [⟨1, 1⟩, ⟨4, 1⟩]) ∧
    (ParseRev.Decimal.toRat ⟨0, 1⟩ = 0 ∧ ParseRev.Decimal.toRat ⟨3, 1⟩ = 3 / 10 ∧
      ParseRev.Decimal.toRat ⟨1, 1⟩ = 1 / 10 ∧ ParseRev.Decimal.toRat ⟨4, 1⟩ = 4 / 10) ∧
    (∃ e, ParseRev.ParseRequestedToCapacityRatioScoringFunctionShape "" = Except.error e) ∧
    (∃ e, ParseRev.ParseRequestedToCapacityRatioScoringFunctionShape "0.0" = Except.error e) ∧
    (∃ e, ParseRev.ParseRequestedToCapacityRatioScoringFunctionShape "blah" = Except.error e) ∧
    (∃ e, ParseRev.ParseRequestedToCapacityRatioScoringFunctionShape "0.3=0.4,0.0=0.1" =
      Except.error e) ∧
    (∀ (s : String) (t : List Char), t ∈ ParseRev.splitOnChar ',' s.data →
      ParseRev.parsePoint t = none →
      ∃ e, ParseRev.ParseRequestedToCapacityRatioScoringFunctionShape s = Except.error e) ∧
    (∀ (s : String) (pts : List (ParseRev.Decimal × ParseRev.Decimal)) (e : String),
      ParseRev.parsePoints (ParseRev.splitOnChar ',' s.data) = some pts →
      ParseRev.newFunctionShape (pts.map Prod.fst) (pts.map Prod.snd) = Except.error e →
      ∃ e2, ParseRev.ParseRequestedToCapacityRatioScoringFunctionShape s = Except.error e2) := by
  refine ⟨rfl, ⟨?_, ?_, ?_, ?_⟩, ⟨_, rfl⟩, ⟨_, rfl⟩, ⟨_, rfl⟩, ⟨_, rfl⟩, ?_, ?_⟩
  · norm_num [ParseRev.Decimal.toRat]
  · norm_num [ParseRev.Decimal.toRat]
  · norm_num [ParseRev.Decimal.toRat]
  · norm_num [ParseRev.Decimal.toRat]
  · intro s t ht hnone
    have hn := ParseRev.parsePoints_none_of_mem (ParseRev.splitOnChar ',' s.data) t ht hnone
    refine ⟨"Cannot parse function shape " ++ s, ?_⟩
    simp only [ParseRev.ParseRequestedToCapacityRatioScoringFunctionShape]
    rw [hn]
  · intro s pts e hpts hnf
    refine ⟨"Cannot parse function shape " ++ s ++ "; err=" ++ e, ?_⟩
    simp only [ParseRev.ParseRequestedToCapacityRatioScoringFunctionShape]
    rw [hpts]
    show (match ParseRev.newFunctionShape (pts.map Prod.fst) (pts.map Prod.snd) with
      | Except.error e =>
        Except.error ("Cannot parse function shape " ++ s ++ "; err=" ++ e)
      | Except.ok shape => Except.ok shape) = _
    rw [hnf]

/-- Witness for C9_descriptor_parsing: its bad-token clause applied at
the concrete descriptor "blah", whose single token has no "=" pair. -/
theorem C9_descriptor_parsing_witness :
    ∃ e, ParseRev.ParseRequestedToCapacityRatioScoringFunctionShape "blah" =
      Except.error e :=
  C9_descriptor_parsing.2.2.2.2.2.2.1 "blah" "blah".data (by decide) rfl

/-- The segment loops of the two revisions agree pointwise once the
point-struct data is laid out as parallel arrays. -/
theorem evalSegments_map_eq : ∀ (prev : FunctionShapePoint)
    (t : List FunctionShapePoint) (p : Int),
    RevA.evalSegments prev.x prev.y (t.map (fun q => q.x)) (t.map (fun q => q.y)) p =
      RevB.evalSegments prev t p
  | _, [], _ => rfl
  | prev, q :: t, p => by
    simp only [List.map_cons]
    unfold RevA.evalSegments RevB.evalSegments
    by_cases hc : p ≤ q.x
    · rw [if_pos hc, if_pos hc]
    · rw [if_neg hc, if_neg hc]
      exact evalSegments_map_eq q t p

/-- C10: for every breakpoint list, the evaluator of the parallel-arrays
revision (on the x/y slices of the points) and the evaluator of the
point-struct revision return equal values at every query position. -/
theorem C10_revisions_pointwise_equal (pts : List FunctionShapePoint) (p : Int) :
    RevA.buildBrokenLinearFunction
        ⟨pts.map (fun q => q.x), pts.map (fun q => q.y)⟩ p =
      RevB.buildBrokenLinearFunction pts p := by
  cases pts with
  | nil => rfl
  | cons c t =>
    simp only [RevA.buildBrokenLinearFunction, List.map_cons]
    rw [if_pos (by simp)]
    show some (if p ≤ c.x then c.y
        else RevA.evalSegments c.x c.y (t.map (fun q => q.x)) (t.map (fun q => q.y)) p) =
      RevB.buildBrokenLinearFunction (c :: t) p
    rw [RevB.buildBrokenLinearFunction]
    by_cases hc : p ≤ c.x
    · rw [if_pos hc, if_pos hc]
    · rw [if_neg hc, if_neg hc, evalSegments_map_eq]

/-- The float revision's divergent interior value: on the segment
x=[100,200], y=[2000,3000] at p=101 — where its own test table and the
linear-interpolation formula give 2010 — the function returns 102000,
because it divides by (p - x[i-1]) instead of (x[i] - x[i-1]). -/
theorem floatRev_interior_divergence :
    FloatRev.brokenLinearFunction [100, 200] [2000, 3000] 101 = some 102000 ∧
    (2000 : ℚ) + ((3000 : ℚ) - 2000) * ((101 : ℚ) - 100) / ((200 : ℚ) - 100) = 2010 := by
  constructor
  · norm_num [FloatRev.brokenLinearFunction, FloatRev.checkIncreasing,
      FloatRev.evalSegments]
  · norm_num
